import Mathlib

/-!
Verification of the streaming thought-resumption engine: a shallow
embedding of the context builder, streaming relay, provider-error
classification, client stream consumer and insight extractor, with
theorems about the properties the specification states.

Sources embedded:
- the chat API route (request schema, context builders, SSE relay loop),
- `lib/vertex/gemini.ts` (provider error classification in `streamChat`),
- `lib/vertex/types.ts` (`generateGreetingMessage`),
- `lib/api/validation.ts` (`isValidDocumentId`),
- `components/conversations/ThinkResumePanel.tsx` (`handleSubmit`,
  `handleReset`, `handleSaveInsight`, the greeting seeding and the
  chat-history filter).
-/

namespace ThinkResume

/-- Model of `Array.prototype.join(sep)` on a list of strings. -/
def joinSep (sep : String) : List String → String
  | [] => ""
  | [x] => x
  | x :: y :: ys => x ++ sep ++ joinSep sep (y :: ys)

/-- Whitespace as trimmed by `String.prototype.trim` (restricted to the
common ASCII whitespace characters). -/
def isWhitespaceChar (c : Char) : Bool :=
  c = ' ' || c = '\t' || c = '\n' || c = '\r'

/-- Model of `String.prototype.trim()`: strip leading and trailing whitespace. -/
def trimChars (s : String) : String :=
  ⟨((s.data.dropWhile isWhitespaceChar).reverse.dropWhile isWhitespaceChar).reverse⟩

/-- Model of `String.prototype.includes(pat)`: substring containment. -/
def strIncludes (s pat : String) : Bool :=
  decide (pat.data <:+: s.data)

/-- The role stored on a captured conversation turn
(`MessageRoleSchema = z.enum(['user', 'assistant', 'system'])`). -/
inductive StoredRole where
  | user
  | assistant
  | system
deriving DecidableEq, Repr

/-- One stored turn of a captured conversation. -/
structure StoredMessage where
  role : StoredRole
  content : String
deriving DecidableEq, Repr

/-- The `messages` field of a stored conversation document as found in the
store: either a well-formed turn list or malformed (the route guards with
`Array.isArray(conversation.messages)`). -/
inductive TurnsField where
  | valid (ms : List StoredMessage)
  | malformed
deriving DecidableEq, Repr

/-- A conversation document as fetched from the store. -/
structure ConversationDoc where
  title : String
  note : Option String
  turns : TurnsField
deriving DecidableEq, Repr

/-- A conversation that survived the `doc.exists` / `Array.isArray` guards. -/
structure Conversation where
  title : String
  note : Option String
  messages : List StoredMessage
deriving DecidableEq, Repr

/-- A space document as fetched from the store. -/
structure SpaceDoc where
  title : String
  note : Option String
  conversationIds : List String
deriving DecidableEq, Repr

/-- The `ThinkResumeContext` record from `lib/vertex/types.ts`. -/
structure ThinkResumeContext where
  conversationSummary : String
  title : Option String := none
  note : Option String := none
deriving DecidableEq, Repr

/-- The role label used when flattening a stored turn:
`msg.role === 'user' ? 'User' : msg.role === 'assistant' ? 'AI' : 'System'`. -/
def roleLabel : StoredRole → String
  | StoredRole.user => "User"
  | StoredRole.assistant => "AI"
  | StoredRole.system => "System"

/-- One flattened transcript line, `` `${role}: ${msg.content}` ``. -/
def renderTurnLine (m : StoredMessage) : String :=
  roleLabel m.role ++ ": " ++ m.content

/-- Embedding of `buildConversationSummary` from the chat route: flatten the turn list
into `"<Role>: <content>"` entries joined by blank lines. -/
def buildConversationSummary (c : Conversation) : String :=
  joinSep "\n\n" (c.messages.map renderTurnLine)

/-- The line list underlying `buildConversationSummary` (the `map` before
the `join`). -/
def summaryLineList (c : Conversation) : List String :=
  c.messages.map renderTurnLine

/-- The space-summary block list: `conversations.map((conv, i) => ...)`,
each block `` `### 対話${i + 1}: ${conv.title}\n${messages}` ``. -/
def spaceBlocksAux (i : Nat) : List Conversation → List String
  | [] => []
  | c :: cs =>
      ("### 対話" ++ toString (i + 1) ++ ": " ++ c.title ++ "\n"
        ++ joinSep "\n\n" (c.messages.map renderTurnLine))
      :: spaceBlocksAux (i + 1) cs

/-- Embedding of `buildSpaceConversationSummary` from the chat route: blocks joined with
a `\n\n---\n\n` separator. -/
def buildSpaceConversationSummary (convs : List Conversation) : String :=
  joinSep "\n\n---\n\n" (spaceBlocksAux 0 convs)

/-- The `for (const doc of docs)` aggregation loop of `buildSpaceContext`:
keep a referenced conversation only when the document exists and its
`messages` field is an array; otherwise continue with the rest. -/
def collectSpaceConversations (store : String → Option ConversationDoc) :
    List String → List Conversation
  | [] => []
  | id :: rest =>
    match store id with
    | none => collectSpaceConversations store rest
    | some d =>
      match d.turns with
      | TurnsField.malformed => collectSpaceConversations store rest
      | TurnsField.valid ms =>
          { title := d.title, note := d.note, messages := ms }
            :: collectSpaceConversations store rest

/-- One referenced conversation id resolved to a usable conversation:
`some` exactly when the document exists and its turn list is well-formed. -/
def usableConv (store : String → Option ConversationDoc) (id : String) :
    Option Conversation :=
  match store id with
  | none => none
  | some d =>
    match d.turns with
    | TurnsField.valid ms => some { title := d.title, note := d.note, messages := ms }
    | TurnsField.malformed => none

/-- The context assembled by `buildSpaceContext` once the space document is
in hand (summary from the surviving member conversations, title and note
from the space itself). -/
def buildSpaceContextCore (store : String → Option ConversationDoc)
    (space : SpaceDoc) : ThinkResumeContext :=
  { conversationSummary :=
      buildSpaceConversationSummary (collectSpaceConversations store space.conversationIds),
    title := some space.title,
    note := space.note }

/-! ### Streaming relay (server boundary) -/

/-- A wire event of the relay's response stream: a text frame
`data: {"text": ...}`, the done frame `data: [DONE]`, or an error frame
`data: {"error": ...}`. -/
inductive StreamEvent where
  | text (v : String)
  | done
  | error (m : String)
deriving DecidableEq, Repr

/-- One run of the provider's async fragment sequence as observed by the
relay loop: the fragments yielded before the sequence settles, and
`some m` when it raises mid-stream with message `m` (`none` on normal
completion). -/
structure ProviderRun where
  yielded : List String
  failure : Option String
deriving DecidableEq, Repr

/-- The event sequence enqueued by the `ReadableStream` start callback of
the chat route: one `text` event per fragment as it arrives, then — once
the provider sequence settles — either the done frame or a single error
frame, after which the controller is closed. -/
def relayEvents : List String → Option String → List StreamEvent
  | [], none => [StreamEvent.done]
  | [], some m => [StreamEvent.error m]
  | f :: fs, outcome => StreamEvent.text f :: relayEvents fs outcome

/-- Terminal events are the done frame and error frames. -/
def isTerminalEvent : StreamEvent → Bool
  | StreamEvent.text _ => false
  | StreamEvent.done => true
  | StreamEvent.error _ => true

/-- The terminal event for a given provider outcome. -/
def terminalEventOf : Option String → StreamEvent
  | none => StreamEvent.done
  | some m => StreamEvent.error m

/-! ### Provider adapter error classification (`streamChat`'s catch) -/

/-- A value raised by the underlying provider call: a JS `Error` carrying
a message, or any non-`Error` value. -/
inductive ThrownValue where
  | err (message : String)
  | nonError
deriving DecidableEq, Repr

/-- Message substituted when the provider error mentions
`PERMISSION_DENIED`. -/
def permissionDeniedMessage : String :=
  "Vertex AI APIへのアクセスが拒否されました。サービスアカウントの権限を確認してください。"

/-- Message substituted when the provider error mentions
`RESOURCE_EXHAUSTED`. -/
def quotaExceededMessage : String :=
  "Vertex AI APIのレート制限に達しました。しばらく待ってから再試行してください。"

/-- Message substituted when the provider error mentions `NOT_FOUND`. -/
def modelUnavailableMessage : String :=
  "Vertex AI APIが見つかりません。GCPプロジェクトでVertex AI APIが有効化されているか確認してください。"

/-- The catch block of `streamChat`: when the raised value is an `Error`
whose message contains one of three recognized substrings, a fresh error
with a short human-readable message is thrown instead; otherwise the
raised value is re-thrown unchanged (`throw error`). -/
def classifyStreamChatError : ThrownValue → ThrownValue
  | ThrownValue.err m =>
      if strIncludes m "PERMISSION_DENIED" then ThrownValue.err permissionDeniedMessage
      else if strIncludes m "RESOURCE_EXHAUSTED" then ThrownValue.err quotaExceededMessage
      else if strIncludes m "NOT_FOUND" then ThrownValue.err modelUnavailableMessage
      else ThrownValue.err m
  | ThrownValue.nonError => ThrownValue.nonError

/-! ### Client: greeting, stream consumer, insight extractor -/

/-- Embedding of `generateGreetingMessage` from `lib/vertex/types.ts`
(`context.title || '前回の対話'` falls back on a missing or empty title). -/
def generateGreetingMessage (context : ThinkResumeContext) : String :=
  let title :=
    match context.title with
    | some t => if t = "" then "前回の対話" else t
    | none => "前回の対話"
  "「" ++ title ++ "」の内容を確認しました。"
    ++ "前回の議論を踏まえて、何かお手伝いできることはありますか？\n\n"
    ++ "例えば:\n"
    ++ "- 前回の議論のポイントを整理する\n"
    ++ "- 特定のトピックについて深掘りする\n"
    ++ "- 新しい視点や疑問について議論する\n\n"
    ++ "お気軽にお聞きください。"

/-- The client-side chat roles (`'user' | 'model'`). -/
inductive ChatRole where
  | user
  | model
deriving DecidableEq, Repr

/-- A `ChatMessage` of the panel's chat history. -/
structure ChatMessage where
  id : String
  role : ChatRole
  content : String
deriving DecidableEq, Repr

/-- A chat-history entry as sent over the wire (`role` + `content`, no id). -/
structure GeminiMessage where
  role : ChatRole
  content : String
deriving DecidableEq, Repr

/-- The `GREETING_MESSAGE_ID` constant from `ThinkResumePanel.tsx`. -/
def GREETING_MESSAGE_ID : String := "greeting"

/-- The synthetic greeting turn seeded at session start. -/
def greetingTurn (ctx : ThinkResumeContext) : ChatMessage :=
  { id := GREETING_MESSAGE_ID, role := ChatRole.model,
    content := generateGreetingMessage ctx }

/-- The rendering state of the panel that the claims speak about: the chat
history and the surfaced error. -/
structure PanelState where
  messages : List ChatMessage
  error : Option String
deriving DecidableEq, Repr

/-- The panel state right after the greeting is seeded. -/
def initialPanelState (ctx : ThinkResumeContext) : PanelState :=
  { messages := [greetingTurn ctx], error := none }

/-- The read loop of `handleSubmit` over the decoded stream events: a text
frame appends its fragment to the accumulator when the fragment is truthy
(`if (parsed.text)` skips the empty string), an error frame with a truthy
message is thrown (`if (parsed.error)` — an empty message is skipped), and
the `[DONE]` frame ends the loop with the accumulator. -/
def processStream : List StreamEvent → String → Except String String
  | [], acc => Except.ok acc
  | StreamEvent.text v :: rest, acc =>
      if v = "" then processStream rest acc else processStream rest (acc ++ v)
  | StreamEvent.done :: _, acc => Except.ok acc
  | StreamEvent.error m :: rest, acc =>
      if m = "" then processStream rest acc else Except.error m

/-- The chat-history payload built inside `handleSubmit`: the current
messages minus the greeting, mapped to `role`/`content` pairs. -/
def buildChatHistory (msgs : List ChatMessage) : List GeminiMessage :=
  (msgs.filter (fun m => m.id ≠ GREETING_MESSAGE_ID)).map
    (fun m => { role := m.role, content := m.content })

/-- Embedding of `handleSubmit` of `ThinkResumePanel.tsx`, as a function of the current
state, the raw input, the fresh ids minted for the user and model turns,
and the stream events received. Empty (after trim) input is an early
return; otherwise the user turn is appended, the stream is consumed, and
on normal completion a model turn holding the accumulated reply is
appended only when the accumulator is non-empty, while a thrown error
message is surfaced and the accumulator discarded. -/
def handleSubmit (s : PanelState) (input uid mid : String)
    (events : List StreamEvent) : PanelState :=
  let t := trimChars input
  if t = "" then s
  else
    let withUser := s.messages ++ [{ id := uid, role := ChatRole.user, content := t }]
    match processStream events "" with
    | Except.error m => { messages := withUser, error := some m }
    | Except.ok acc =>
        if acc = "" then { messages := withUser, error := none }
        else
          { messages :=
              withUser ++ [{ id := mid, role := ChatRole.model, content := acc }],
            error := none }

/-- Embedding of `handleReset`: the history is cleared and re-seeded with a fresh
greeting on the next render. -/
def handleReset (ctx : ThinkResumeContext) : PanelState :=
  initialPanelState ctx

/-- Panel states reachable through the component's operations. -/
inductive ReachablePanel (ctx : ThinkResumeContext) : PanelState → Prop
  | init : ReachablePanel ctx (initialPanelState ctx)
  | submit (s : PanelState) (input uid mid : String) (events : List StreamEvent) :
      ReachablePanel ctx s → ReachablePanel ctx (handleSubmit s input uid mid events)
  | reset (s : PanelState) :
      ReachablePanel ctx s → ReachablePanel ctx (handleReset ctx)

/-- The backward scan of `handleSaveInsight`
(`for (let i = modelMessageIndex - 1; i >= 0; i--)`) looking for the
nearest user turn strictly before the given index. -/
def findPrecedingUserAux (msgs : List ChatMessage) : Nat → Option ChatMessage
  | 0 => none
  | j + 1 =>
    match msgs[j]? with
    | some m =>
        if m.role = ChatRole.user then some m else findPrecedingUserAux msgs j
    | none => findPrecedingUserAux msgs j

/-- The question/answer pair submitted to the insight endpoint. -/
structure PendingInsight where
  conversationId : String
  question : String
  answer : String
deriving DecidableEq, Repr

/-- Embedding of `handleSaveInsight`: locate the target model turn by id, scan backward
for the nearest preceding user turn, and submit the pair; `none` models
every early return (unknown id or no preceding user turn), where no
network call is made. -/
def handleSaveInsight (convId : String) (msgs : List ChatMessage)
    (targetId : String) : Option PendingInsight :=
  match msgs.findIdx? (fun m => m.id == targetId) with
  | none => none
  | some idx =>
    match msgs[idx]? with
    | none => none
    | some target =>
      match findPrecedingUserAux msgs idx with
      | none => none
      | some u => some { conversationId := convId, question := u.content,
                         answer := target.content }

/-! ### Request validation and the POST flow of the chat route -/

/-- Embedding of `isValidDocumentId` from `lib/api/validation.ts`. The reserved-name
regex `/^__.*__$/` matches exactly the ids of length at least 4 that start
and end with `__` and whose middle contains no newline (`.` does not match
a newline). -/
def isValidDocumentId (id : String) : Bool :=
  if id.length = 0 || id.length > 1500 then false
  else if id.contains '/' then false
  else if id = "." || id = ".." then false
  else if id.startsWith "__" && id.endsWith "__" && decide (4 ≤ id.length)
          && !(((id.drop 2).dropRight 2).contains '\n') then false
  else true

/-- A chat request body already shaped like the schema's object (the
malformed-JSON and wrongly-typed-field rejections happen before this
point); `none` fields model absent keys, `chatHistory` defaults to `[]`. -/
structure ChatRequestBody where
  conversationId : Option String := none
  spaceId : Option String := none
  userMessage : String
  chatHistory : Option (List GeminiMessage) := none
deriving DecidableEq, Repr

/-- The field constraints of `ChatRequestSchema` before the `refine`:
present ids non-empty, `userMessage` between 1 and 10000 characters,
`chatHistory` at most 50 entries of at most 10000 characters each. -/
def chatRequestBaseValid (b : ChatRequestBody) : Bool :=
  (match b.conversationId with
   | some s => decide (1 ≤ s.length)
   | none => true)
  && (match b.spaceId with
      | some s => decide (1 ≤ s.length)
      | none => true)
  && decide (1 ≤ b.userMessage.length) && decide (b.userMessage.length ≤ 10000)
  && decide ((b.chatHistory.getD []).length ≤ 50)
  && (b.chatHistory.getD []).all (fun m => decide (m.content.length ≤ 10000))

/-- The schema's `refine`:
`(data.conversationId !== undefined) !== (data.spaceId !== undefined)`. -/
def chatRequestRefineOk (b : ChatRequestBody) : Bool :=
  !(b.conversationId.isSome == b.spaceId.isSome)

/-- A request that passed `ChatRequestSchema.safeParse`. -/
structure ChatRequest where
  conversationId : Option String
  spaceId : Option String
  userMessage : String
  chatHistory : List GeminiMessage
deriving DecidableEq, Repr

/-- Embedding of `ChatRequestSchema.safeParse` on a shaped body: `some` exactly when
the field constraints and the exclusivity refinement hold. -/
def parseChatRequest (b : ChatRequestBody) : Option ChatRequest :=
  if chatRequestBaseValid b && chatRequestRefineOk b then
    some { conversationId := b.conversationId, spaceId := b.spaceId,
           userMessage := b.userMessage, chatHistory := b.chatHistory.getD [] }
  else none

/-- The outcome of `POST /api/chat`: a non-streaming client error
(status and machine-readable code), a non-streaming server error, or a
committed streaming response carrying the framed events. -/
inductive PostResult where
  | clientError (status : Nat) (code : String)
  | serverError
  | stream (events : List StreamEvent)
deriving DecidableEq, Repr

/-- The read-only persistence boundary as the route sees it. -/
structure Store where
  conversations : String → Option ConversationDoc
  spaces : String → Option SpaceDoc

/-- Embedding of `buildConversationContext` of the chat route: id-format gate, fetch,
existence gate, `Array.isArray` data-integrity gate, then the flattened
context. -/
def buildConversationContext (store : Store) (conversationId : String) :
    Except PostResult ThinkResumeContext :=
  if !isValidDocumentId conversationId then
    Except.error (PostResult.clientError 400 "INVALID_ID_FORMAT")
  else
    match store.conversations conversationId with
    | none => Except.error (PostResult.clientError 404 "NOT_FOUND")
    | some d =>
      match d.turns with
      | TurnsField.malformed => Except.error PostResult.serverError
      | TurnsField.valid ms =>
          Except.ok
            { conversationSummary :=
                buildConversationSummary { title := d.title, note := d.note, messages := ms },
              title := some d.title, note := d.note }

/-- Embedding of `buildSpaceContext` of the chat route: id-format gate, fetch,
existence gate, then the aggregation over the referenced conversations
(missing or malformed members silently skipped). -/
def buildSpaceContext (store : Store) (spaceId : String) :
    Except PostResult ThinkResumeContext :=
  if !isValidDocumentId spaceId then
    Except.error (PostResult.clientError 400 "INVALID_ID_FORMAT")
  else
    match store.spaces spaceId with
    | none => Except.error (PostResult.clientError 404 "NOT_FOUND")
    | some sp => Except.ok (buildSpaceContextCore store.conversations sp)

/-- The `POST` handler of the chat route, with the provider's streaming
behaviour abstracted as a `ProviderRun` parameter: validate, build the
context for the selected subject, then commit the streaming response whose
events are `relayEvents`. -/
def postChat (store : Store) (provider : ProviderRun) (b : ChatRequestBody) :
    PostResult :=
  match parseChatRequest b with
  | none => PostResult.clientError 400 "VALIDATION_ERROR"
  | some req =>
    let built :=
      match req.conversationId with
      | some cid => buildConversationContext store cid
      | none => buildSpaceContext store (req.spaceId.getD "")
    match built with
    | Except.error e => e
    | Except.ok _ => PostResult.stream (relayEvents provider.yielded provider.failure)

/-! ### Shared helper lemmas -/

/-- A string of positive length is not the empty string. -/
theorem string_ne_empty_of_length_pos {s : String} (h : 0 < s.length) : s ≠ "" := by
  intro he
  rw [he] at h
  simp [String.length_empty] at h

/-- The head's length bounds the joined string's length from below. -/
theorem length_le_joinSep_cons (sep x : String) (xs : List String) :
    x.length ≤ (joinSep sep (x :: xs)).length := by
  cases xs with
  | nil => simp [joinSep]
  | cons y ys =>
      simp only [joinSep, String.length_append]
      omega

/-- The function `relayEvents` unrolled into map-plus-terminal form. -/
theorem relayEvents_eq (fs : List String) (outcome : Option String) :
    relayEvents fs outcome = fs.map StreamEvent.text ++ [terminalEventOf outcome] := by
  induction fs with
  | nil => cases outcome <;> rfl
  | cons f fs ih => simp [relayEvents, ih]

/-- C1: the stream emitted by the chat relay is exactly one `text` event
per fragment yielded by the provider adapter, in yield order (the events
before the last are precisely the mapped fragments), followed by exactly
one terminal event — `done` on normal completion, `error` with the raised
message otherwise — and the terminal event is the last element, so nothing
follows it. -/
theorem relay_stream_shape (fs : List String) (outcome : Option String) :
    relayEvents fs outcome = fs.map StreamEvent.text ++ [terminalEventOf outcome]
    ∧ (relayEvents fs outcome).countP isTerminalEvent = 1
    ∧ (relayEvents fs outcome).getLast? = some (terminalEventOf outcome)
    ∧ (relayEvents fs outcome).dropLast = fs.map StreamEvent.text
    ∧ (∀ f, isTerminalEvent (StreamEvent.text f) = false)
    ∧ isTerminalEvent (terminalEventOf outcome) = true := by
  have h := relayEvents_eq fs outcome
  refine ⟨h, ?_, ?_, ?_, fun _ => rfl, ?_⟩
  · rw [h, List.countP_append, List.countP_map]
    have hz : fs.countP (isTerminalEvent ∘ StreamEvent.text) = 0 := by
      simp [Function.comp_def, isTerminalEvent]
    rw [hz]
    cases outcome <;> rfl
  · rw [h]
    exact List.getLast?_concat _
  · rw [h]
    exact List.dropLast_concat
  · cases outcome <;> rfl

/-- C4: for a conversation, the summary is the turn list rendered line by
line — the line list has exactly one line per stored turn, the i-th line
renders the i-th turn (order preserved), each line is
`"<Role>: <content>"`, and the three stored roles map to `User`, `AI` and
`System`. -/
theorem conversation_summary_lines (c : Conversation) :
    buildConversationSummary c = joinSep "\n\n" (summaryLineList c)
    ∧ (summaryLineList c).length = c.messages.length
    ∧ (∀ i : Nat, (summaryLineList c)[i]? = (c.messages[i]?).map renderTurnLine)
    ∧ (∀ m, renderTurnLine m = roleLabel m.role ++ ": " ++ m.content)
    ∧ roleLabel StoredRole.user = "User"
    ∧ roleLabel StoredRole.assistant = "AI"
    ∧ roleLabel StoredRole.system = "System" := by
  refine ⟨rfl, ?_, ?_, fun _ => rfl, rfl, rfl, rfl⟩
  · simp [summaryLineList]
  · intro i
    simp [summaryLineList]

/-- C5: the chat history sent with a request never contains the synthetic
greeting turn: the greeting contributes nothing to the payload wherever it
sits in the message list, and the history built from the freshly seeded
state is empty. -/
theorem chat_history_excludes_greeting (ctx : ThinkResumeContext)
    (pre post : List ChatMessage) :
    buildChatHistory (pre ++ [greetingTurn ctx] ++ post) = buildChatHistory (pre ++ post)
    ∧ buildChatHistory (initialPanelState ctx).messages = [] := by
  constructor
  · simp [buildChatHistory, List.filter_append, greetingTurn, GREETING_MESSAGE_ID]
  · simp [buildChatHistory, initialPanelState, greetingTurn, GREETING_MESSAGE_ID]

/-- The aggregation loop keeps exactly the usable referenced
conversations, in reference order. -/
theorem collectSpaceConversations_eq_filterMap
    (store : String → Option ConversationDoc) (ids : List String) :
    collectSpaceConversations store ids = ids.filterMap (usableConv store) := by
  induction ids with
  | nil => rfl
  | cons id rest ih =>
    rw [List.filterMap_cons]
    cases h : store id with
    | none => simp [collectSpaceConversations, usableConv, h, ih]
    | some d =>
      cases ht : d.turns with
      | valid ms => simp [collectSpaceConversations, usableConv, h, ht, ih]
      | malformed => simp [collectSpaceConversations, usableConv, h, ht, ih]

/-- The block list has one block per (surviving) conversation. -/
theorem spaceBlocksAux_length (i : Nat) (convs : List Conversation) :
    (spaceBlocksAux i convs).length = convs.length := by
  induction convs generalizing i with
  | nil => rfl
  | cons c cs ih => simp [spaceBlocksAux, ih]

/-- C3: for a space referencing `ids`, the aggregation yields exactly the
referenced conversations that exist in the store with a well-formed turn
list, in the original reference order (`filterMap` over the reference
list); the summary's block list therefore has exactly `M` blocks where
`M` counts the usable references. The functions are total, so the
aggregation never throws on missing or malformed members. -/
theorem space_context_block_count (store : String → Option ConversationDoc)
    (ids : List String) :
    collectSpaceConversations store ids = ids.filterMap (usableConv store)
    ∧ (spaceBlocksAux 0 (collectSpaceConversations store ids)).length
        = ids.countP (fun id => (usableConv store id).isSome)
    ∧ buildSpaceConversationSummary (collectSpaceConversations store ids)
        = joinSep "\n\n---\n\n" (spaceBlocksAux 0 (collectSpaceConversations store ids)) := by
  refine ⟨collectSpaceConversations_eq_filterMap store ids, ?_, rfl⟩
  rw [spaceBlocksAux_length, collectSpaceConversations_eq_filterMap,
    List.length_filterMap_eq_countP]

/-- Consuming a stream of text frames terminated by an error frame with a
non-empty message always throws that message. -/
theorem processStream_texts_then_error (texts : List String) (m : String)
    (hm : m ≠ "") (acc : String) :
    processStream (texts.map StreamEvent.text ++ [StreamEvent.error m]) acc
      = Except.error m := by
  induction texts generalizing acc with
  | nil => simp [processStream, hm]
  | cons t ts ih =>
    by_cases h : t = "" <;> simp [processStream, h, ih]

/-- C2 (counterexample): when the error frame carries an empty message,
the consumer's truthiness check `if (parsed.error)` skips it, so the
partial accumulated text is NOT discarded — after fragments `"Par"` and an
empty-message error frame, the history ends with a model turn `"Par"` and
no error is surfaced, contradicting the claim as stated. -/
theorem submit_empty_error_message_keeps_partial :
    (handleSubmit (initialPanelState ⟨"S", none, none⟩) "hi" "u1" "m1"
        [StreamEvent.text "Par", StreamEvent.error ""]).messages
      = (initialPanelState ⟨"S", none, none⟩).messages
          ++ [{ id := "u1", role := ChatRole.user, content := "hi" },
              { id := "m1", role := ChatRole.model, content := "Par" }]
    ∧ (handleSubmit (initialPanelState ⟨"S", none, none⟩) "hi" "u1" "m1"
        [StreamEvent.text "Par", StreamEvent.error ""]).error = none := by
  constructor <;> rfl

/-- C2 (amended): for every chat submission whose stream yields text
fragments and then an error event carrying a non-empty message, the
consumer discards the partial accumulated text (no model turn is
appended), surfaces the error message, and the history afterward is the
prior history plus only the user's turn. -/
theorem submit_error_event_discards_partial (s : PanelState)
    (input uid mid : String) (texts : List String) (m : String)
    (ht : trimChars input ≠ "") (hm : m ≠ "") :
    handleSubmit s input uid mid (texts.map StreamEvent.text ++ [StreamEvent.error m])
      = { messages :=
            s.messages ++ [{ id := uid, role := ChatRole.user, content := trimChars input }],
          error := some m } := by
  unfold handleSubmit
  rw [if_neg ht, processStream_texts_then_error texts m hm]

/-- Witness for the amended C2 theorem at a concrete submission. -/
theorem submit_error_event_discards_partial_witness :
    handleSubmit (initialPanelState ⟨"S", none, none⟩) "hi" "u1" "m1"
        ([StreamEvent.text "Par"] ++ [StreamEvent.error "quota"])
      = { messages :=
            (initialPanelState ⟨"S", none, none⟩).messages
              ++ [{ id := "u1", role := ChatRole.user, content := "hi" }],
          error := some "quota" } :=
  submit_error_event_discards_partial (initialPanelState ⟨"S", none, none⟩)
    "hi" "u1" "m1" ["Par"] "quota" (by decide) (by decide)

/-- C10: when the stream terminates normally with an empty accumulated
reply, no model turn is appended — the settled history is the prior
history plus only the user's turn — and no error is surfaced. -/
theorem empty_reply_appends_no_model_turn (s : PanelState)
    (input uid mid : String) (events : List StreamEvent)
    (ht : trimChars input ≠ "") (hp : processStream events "" = Except.ok "") :
    handleSubmit s input uid mid events
      = { messages :=
            s.messages ++ [{ id := uid, role := ChatRole.user, content := trimChars input }],
          error := none } := by
  unfold handleSubmit
  rw [if_neg ht, hp]
  simp

/-- Witness for the C10 theorem at a concrete submission. -/
theorem empty_reply_appends_no_model_turn_witness :
    handleSubmit (initialPanelState ⟨"S", none, none⟩) "hi" "u1" "m1"
        [StreamEvent.done]
      = { messages :=
            (initialPanelState ⟨"S", none, none⟩).messages
              ++ [{ id := "u1", role := ChatRole.user, content := "hi" }],
          error := none } :=
  empty_reply_appends_no_model_turn (initialPanelState ⟨"S", none, none⟩)
    "hi" "u1" "m1" [StreamEvent.done] (by decide) rfl

/-- C7: a chat request body in which `conversationId` and `spaceId` are
both present — or both absent — is rejected by the schema's exclusivity
refinement as a `VALIDATION_ERROR` (status 400), and the outcome is the
same for every store and every provider behaviour, i.e. no store fetch or
provider call influences it. -/
theorem chat_request_exclusivity_rejected (store : Store)
    (provider : ProviderRun) (b : ChatRequestBody)
    (h : b.conversationId.isSome = b.spaceId.isSome) :
    postChat store provider b = PostResult.clientError 400 "VALIDATION_ERROR" := by
  unfold postChat parseChatRequest
  have hr : chatRequestRefineOk b = false := by
    unfold chatRequestRefineOk
    rw [h]
    simp
  rw [hr]
  simp

/-- Witness for the C7 theorem: one request with both subject ids and one
with neither, each rejected regardless of the (empty) store and provider. -/
theorem chat_request_exclusivity_rejected_witness :
    postChat ⟨fun _ => none, fun _ => none⟩ ⟨[], none⟩
        { conversationId := some "c1", spaceId := some "s1", userMessage := "hi" }
      = PostResult.clientError 400 "VALIDATION_ERROR"
    ∧ postChat ⟨fun _ => none, fun _ => none⟩ ⟨["x"], some "boom"⟩
        { userMessage := "hi" }
      = PostResult.clientError 400 "VALIDATION_ERROR" :=
  ⟨chat_request_exclusivity_rejected _ _ _ (by decide),
   chat_request_exclusivity_rejected _ _ _ (by decide)⟩

/-- C8 (counterexample): a provider error whose message matches none of the
three recognized substrings is re-thrown unchanged by `streamChat`'s catch
block — the raw provider error passes the adapter boundary unclassified,
its message being none of the three short classified messages —
contradicting the claim that no raw provider error ever passes
unclassified. -/
theorem stream_error_unknown_passes_raw :
    classifyStreamChatError (ThrownValue.err "boom") = ThrownValue.err "boom"
    ∧ "boom" ≠ permissionDeniedMessage
    ∧ "boom" ≠ quotaExceededMessage
    ∧ "boom" ≠ modelUnavailableMessage := by
  refine ⟨?_, by decide, by decide, by decide⟩
  decide

/-- C8 (amended): the adapter classifies `PermissionDenied`,
`QuotaExceeded` and `ModelUnavailable` by substring match on the raised
`Error`'s message — in that priority order — substituting a short
human-readable message for each; every other raised value (an `Error`
matching none of the substrings, or a non-`Error` value) is re-thrown
unchanged, so raw provider errors do cross the boundary in the
unrecognized case. -/
theorem stream_error_classification (m : String) :
    (strIncludes m "PERMISSION_DENIED" = true →
       classifyStreamChatError (ThrownValue.err m)
         = ThrownValue.err permissionDeniedMessage)
    ∧ (strIncludes m "PERMISSION_DENIED" = false →
       strIncludes m "RESOURCE_EXHAUSTED" = true →
       classifyStreamChatError (ThrownValue.err m)
         = ThrownValue.err quotaExceededMessage)
    ∧ (strIncludes m "PERMISSION_DENIED" = false →
       strIncludes m "RESOURCE_EXHAUSTED" = false →
       strIncludes m "NOT_FOUND" = true →
       classifyStreamChatError (ThrownValue.err m)
         = ThrownValue.err modelUnavailableMessage)
    ∧ (strIncludes m "PERMISSION_DENIED" = false →
       strIncludes m "RESOURCE_EXHAUSTED" = false →
       strIncludes m "NOT_FOUND" = false →
       classifyStreamChatError (ThrownValue.err m) = ThrownValue.err m)
    ∧ classifyStreamChatError ThrownValue.nonError = ThrownValue.nonError := by
  refine ⟨?_, ?_, ?_, ?_, rfl⟩ <;>
    intros <;> simp [classifyStreamChatError, *]

/-- Witness for the amended C8 theorem at a concrete quota error. -/
theorem stream_error_classification_witness :
    strIncludes "429 RESOURCE_EXHAUSTED: quota" "PERMISSION_DENIED" = false
    ∧ strIncludes "429 RESOURCE_EXHAUSTED: quota" "RESOURCE_EXHAUSTED" = true
    ∧ classifyStreamChatError (ThrownValue.err "429 RESOURCE_EXHAUSTED: quota")
        = ThrownValue.err quotaExceededMessage :=
  ⟨by decide, by decide,
   (stream_error_classification "429 RESOURCE_EXHAUSTED: quota").2.1
     (by decide) (by decide)⟩

/-- C9 (counterexample): a space with one referenced conversation whose
document is missing from the store yields an EMPTY summary — the subject
is non-empty (one referenced conversation) yet the built context's summary
is `""`, contradicting the claim as stated. -/
theorem space_context_empty_summary_with_missing_member :
    (buildSpaceContextCore (fun _ => none)
        { title := "S", note := none, conversationIds := ["c1"] }).conversationSummary = ""
    ∧ ({ title := "S", note := none, conversationIds := ["c1"] }
        : SpaceDoc).conversationIds.length = 1 :=
  ⟨rfl, rfl⟩

/-- C9 (amended): the built context has a non-empty summary when the
conversation has at least one turn; in space mode the correct hypothesis
is that at least one referenced conversation survives the aggregation
(exists in the store with a well-formed turn list) — a non-empty reference
list alone is not enough. -/
theorem context_summary_nonempty :
    (∀ c : Conversation, c.messages ≠ [] → buildConversationSummary c ≠ "")
    ∧ (∀ (store : String → Option ConversationDoc) (space : SpaceDoc),
        collectSpaceConversations store space.conversationIds ≠ [] →
        (buildSpaceContextCore store space).conversationSummary ≠ "") := by
  constructor
  · intro c hc
    apply string_ne_empty_of_length_pos
    cases hm : c.messages with
    | nil => exact absurd hm hc
    | cons m ms =>
      have h1 : (renderTurnLine m).length
          ≤ (buildConversationSummary c).length := by
        unfold buildConversationSummary
        rw [hm, List.map_cons]
        exact length_le_joinSep_cons _ _ _
      have h2 : 0 < (renderTurnLine m).length := by
        unfold renderTurnLine
        rw [String.length_append, String.length_append]
        have : 0 < (roleLabel m.role).length := by
          cases m.role <;> decide
        omega
      omega
  · intro store space hne
    apply string_ne_empty_of_length_pos
    cases hm : collectSpaceConversations store space.conversationIds with
    | nil => exact absurd hm hne
    | cons c cs =>
      have h1 : ("### 対話" ++ toString (0 + 1) ++ ": " ++ c.title ++ "\n"
            ++ joinSep "\n\n" (c.messages.map renderTurnLine)).length
          ≤ (buildSpaceContextCore store space).conversationSummary.length := by
        show _ ≤ (buildSpaceConversationSummary
          (collectSpaceConversations store space.conversationIds)).length
        unfold buildSpaceConversationSummary
        rw [hm]
        exact length_le_joinSep_cons _ _ _
      have h2 : 0 < ("### 対話" ++ toString (0 + 1) ++ ": " ++ c.title ++ "\n"
          ++ joinSep "\n\n" (c.messages.map renderTurnLine)).length := by
        simp only [String.length_append]
        have : 0 < ("### 対話" : String).length := by decide
        omega
      omega

/-- Witness for the amended C9 theorem: a one-turn conversation and a
one-member space whose member resolves. -/
theorem context_summary_nonempty_witness :
    buildConversationSummary ⟨"T", none, [⟨StoredRole.user, "q"⟩]⟩ ≠ ""
    ∧ (buildSpaceContextCore
        (fun _ => some ⟨"T", none, TurnsField.valid [⟨StoredRole.user, "q"⟩]⟩)
        ⟨"S", none, ["c1"]⟩).conversationSummary ≠ "" :=
  ⟨context_summary_nonempty.1 _ (by decide),
   context_summary_nonempty.2 _ _ (by decide)⟩

/-! ### Helper lemmas for the insight extractor -/

/-- The greeting message always starts with a bracketed title, hence is
never empty. -/
theorem generateGreetingMessage_ne_empty (ctx : ThinkResumeContext) :
    generateGreetingMessage ctx ≠ "" := by
  apply string_ne_empty_of_length_pos
  simp only [generateGreetingMessage, String.length_append]
  have : 0 < ("「" : String).length := by decide
  omega

/-- Running `handleSubmit` on blank input is the identity. -/
theorem handleSubmit_of_trim_empty (s : PanelState) (input uid mid : String)
    (events : List StreamEvent) (ht : trimChars input = "") :
    handleSubmit s input uid mid events = s := by
  unfold handleSubmit
  rw [if_pos ht]

/-- Running `handleSubmit` when the stream throws: user turn appended, error
surfaced, accumulator discarded. -/
theorem handleSubmit_of_stream_error (s : PanelState) (input uid mid : String)
    (events : List StreamEvent) (m : String) (ht : trimChars input ≠ "")
    (hp : processStream events "" = Except.error m) :
    handleSubmit s input uid mid events
      = { messages :=
            s.messages ++ [{ id := uid, role := ChatRole.user, content := trimChars input }],
          error := some m } := by
  unfold handleSubmit
  rw [if_neg ht, hp]

/-- Running `handleSubmit` when the stream settles with an empty accumulator: only
the user turn is appended. -/
theorem handleSubmit_of_ok_empty (s : PanelState) (input uid mid : String)
    (events : List StreamEvent) (ht : trimChars input ≠ "")
    (hp : processStream events "" = Except.ok "") :
    handleSubmit s input uid mid events
      = { messages :=
            s.messages ++ [{ id := uid, role := ChatRole.user, content := trimChars input }],
          error := none } := by
  unfold handleSubmit
  rw [if_neg ht, hp]
  simp

/-- Running `handleSubmit` when the stream settles with a non-empty accumulator:
user turn and model turn appended, no error. -/
theorem handleSubmit_of_ok (s : PanelState) (input uid mid : String)
    (events : List StreamEvent) (acc : String) (ht : trimChars input ≠ "")
    (hp : processStream events "" = Except.ok acc) (hacc : acc ≠ "") :
    handleSubmit s input uid mid events
      = { messages :=
            s.messages
              ++ [{ id := uid, role := ChatRole.user, content := trimChars input },
                  { id := mid, role := ChatRole.model, content := acc }],
          error := none } := by
  unfold handleSubmit
  rw [if_neg ht, hp]
  simp [hacc]

/-- Every turn of a reachable panel state has non-empty content: the
greeting is non-empty, user turns carry the non-blank trimmed input, and
model turns are appended only for a non-empty accumulated reply. -/
theorem reachable_contents_nonempty (ctx : ThinkResumeContext) (s : PanelState)
    (h : ReachablePanel ctx s) : ∀ m ∈ s.messages, m.content ≠ "" := by
  induction h with
  | init =>
    intro m hm
    simp only [initialPanelState, List.mem_singleton] at hm
    subst hm
    exact generateGreetingMessage_ne_empty ctx
  | reset s hs ih =>
    intro m hm
    simp only [handleReset, initialPanelState, List.mem_singleton] at hm
    subst hm
    exact generateGreetingMessage_ne_empty ctx
  | submit s input uid mid events hs ih =>
    intro m hm
    by_cases ht : trimChars input = ""
    · rw [handleSubmit_of_trim_empty s input uid mid events ht] at hm
      exact ih m hm
    · cases hp : processStream events "" with
      | error e =>
        rw [handleSubmit_of_stream_error s input uid mid events e ht hp] at hm
        simp only [List.mem_append, List.mem_singleton] at hm
        rcases hm with hm | hm
        · exact ih m hm
        · subst hm
          exact ht
      | ok acc =>
        by_cases hacc : acc = ""
        · subst hacc
          rw [handleSubmit_of_ok_empty s input uid mid events ht hp] at hm
          simp only [List.mem_append, List.mem_singleton] at hm
          rcases hm with hm | hm
          · exact ih m hm
          · subst hm
            exact ht
        · rw [handleSubmit_of_ok s input uid mid events acc ht hp hacc] at hm
          simp only [List.mem_append, List.mem_cons, List.mem_singleton,
            List.not_mem_nil, or_false] at hm
          rcases hm with hm | hm | hm
          · exact ih m hm
          · subst hm
            exact ht
          · subst hm
            exact hacc

/-- If the backward scan returns a turn, that turn is a user turn sitting
at some index strictly before the scan start, and no user turn lies
strictly between the two. -/
theorem findPrecedingUserAux_some_spec (msgs : List ChatMessage) :
    ∀ idx u, findPrecedingUserAux msgs idx = some u →
      u.role = ChatRole.user ∧
      ∃ j, j < idx ∧ msgs[j]? = some u ∧
        ∀ k, j < k → k < idx → ∀ m', msgs[k]? = some m' →
          m'.role ≠ ChatRole.user := by
  intro idx
  induction idx with
  | zero =>
    intro u h
    exact absurd h (by simp [findPrecedingUserAux])
  | succ j ih =>
    intro u h
    unfold findPrecedingUserAux at h
    cases hj : msgs[j]? with
    | some m =>
      rw [hj] at h
      dsimp only at h
      by_cases hr : m.role = ChatRole.user
      · rw [if_pos hr] at h
        obtain rfl : m = u := Option.some.inj h
        refine ⟨hr, j, Nat.lt_succ_self j, hj, ?_⟩
        intro k hk1 hk2
        exact absurd hk2 (by omega)
      · rw [if_neg hr] at h
        obtain ⟨hu, j', hlt, hget, hbetween⟩ := ih u h
        refine ⟨hu, j', Nat.lt_succ_of_lt hlt, hget, ?_⟩
        intro k hk1 hk2 m' hm'
        by_cases hkj : k = j
        · subst hkj
          rw [hj] at hm'
          obtain rfl : m = m' := Option.some.inj hm'
          exact hr
        · exact hbetween k hk1 (by omega) m' hm'
    | none =>
      rw [hj] at h
      dsimp only at h
      obtain ⟨hu, j', hlt, hget, hbetween⟩ := ih u h
      refine ⟨hu, j', Nat.lt_succ_of_lt hlt, hget, ?_⟩
      intro k hk1 hk2 m' hm'
      by_cases hkj : k = j
      · subst hkj
        rw [hj] at hm'
        exact absurd hm' (by simp)
      · exact hbetween k hk1 (by omega) m' hm'

/-- If no user turn precedes the scan start, the backward scan fails. -/
theorem findPrecedingUserAux_none_of_no_user (msgs : List ChatMessage) :
    ∀ idx, (∀ j, j < idx → ∀ m, msgs[j]? = some m → m.role ≠ ChatRole.user) →
      findPrecedingUserAux msgs idx = none := by
  intro idx
  induction idx with
  | zero => intro _; rfl
  | succ j ih =>
    intro h
    unfold findPrecedingUserAux
    cases hj : msgs[j]? with
    | some m =>
      dsimp only
      rw [if_neg (h j (Nat.lt_succ_self j) m hj)]
      exact ih fun k hk m' hm' => h k (Nat.lt_succ_of_lt hk) m' hm'
    | none =>
      dsimp only
      exact ih fun k hk m' hm' => h k (Nat.lt_succ_of_lt hk) m' hm'

/-- Unfolding of `List.findIdx?` on a cons cell. -/
theorem findIdx?_cons_eq {α : Type} (p : α → Bool) (x : α) (l : List α) :
    List.findIdx? p (x :: l)
      = bif p x then some 0 else (List.findIdx? p l).map Nat.succ := by
  simp [List.findIdx?]

/-- The search `List.findIdx?` skips a left part on which the predicate is false. -/
theorem findIdx?_append_all_false {α : Type} (p : α → Bool) (l₁ l₂ : List α)
    (h : ∀ a ∈ l₁, p a = false) :
    List.findIdx? p (l₁ ++ l₂) = (List.findIdx? p l₂).map (· + l₁.length) := by
  induction l₁ with
  | nil =>
    simp only [List.nil_append, List.length_nil]
    cases hf : List.findIdx? p l₂ <;> simp [hf]
  | cons x xs ih =>
    rw [List.cons_append, findIdx?_cons_eq, h x (List.mem_cons_self x xs),
      cond_false, ih fun a ha => h a (List.mem_cons_of_mem x ha)]
    cases List.findIdx? p l₂ with
    | none => rfl
    | some a =>
      simp [Nat.succ_eq_add_one]
      omega

/-- C6: the insight extractor scans backward from the target model turn to
the nearest preceding user turn. (1) If no user turn precedes the target
(the greeting case), the call is a no-op — no pair is submitted. (2) If the
scan finds `u`, the submitted pair is exactly
`(question := u.content, answer := target.content)` where `u` is a user
turn at some index before the target with no user turn strictly between.
(3) On any reachable panel history a submitted pair has non-empty question
and answer. (4) Round-trip: saving the reply settled by a submission whose
accumulated text is `acc` submits exactly the pair of the trimmed input
and `acc` — the full accumulated text, no truncation or artifacts. -/
theorem save_insight_pairing (convId targetId : String)
    (msgs : List ChatMessage) :
    (∀ idx, msgs.findIdx? (fun m => m.id == targetId) = some idx →
       (∀ j, j < idx → ∀ m, msgs[j]? = some m → m.role ≠ ChatRole.user) →
       handleSaveInsight convId msgs targetId = none)
    ∧ (∀ idx target u,
       msgs.findIdx? (fun m => m.id == targetId) = some idx →
       msgs[idx]? = some target →
       findPrecedingUserAux msgs idx = some u →
       handleSaveInsight convId msgs targetId
         = some { conversationId := convId, question := u.content,
                  answer := target.content }
       ∧ u.role = ChatRole.user
       ∧ ∃ j, j < idx ∧ msgs[j]? = some u
           ∧ ∀ k, j < k → k < idx → ∀ m', msgs[k]? = some m' →
               m'.role ≠ ChatRole.user)
    ∧ (∀ (ctx : ThinkResumeContext) (s : PanelState), ReachablePanel ctx s →
       ∀ p, handleSaveInsight convId s.messages targetId = some p →
       p.question ≠ "" ∧ p.answer ≠ "")
    ∧ (∀ (s : PanelState) (input uid mid : String) (events : List StreamEvent)
         (acc : String),
       (∀ m ∈ s.messages, m.id ≠ mid) → uid ≠ mid → trimChars input ≠ "" →
       processStream events "" = Except.ok acc → acc ≠ "" →
       handleSaveInsight convId (handleSubmit s input uid mid events).messages mid
         = some { conversationId := convId, question := trimChars input,
                  answer := acc }) := by
  refine ⟨?_, ?_, ?_, ?_⟩
  · intro idx hidx hnone
    unfold handleSaveInsight
    rw [hidx]
    dsimp only
    cases htar : msgs[idx]? with
    | none => rfl
    | some target =>
      dsimp only
      rw [findPrecedingUserAux_none_of_no_user msgs idx hnone]
  · intro idx target u hidx htar hu
    obtain ⟨hrole, j, hjlt, hjget, hbetween⟩ :=
      findPrecedingUserAux_some_spec msgs idx u hu
    refine ⟨?_, hrole, j, hjlt, hjget, hbetween⟩
    unfold handleSaveInsight
    rw [hidx]
    dsimp only
    rw [htar]
    dsimp only
    rw [hu]
  · intro ctx s hs p hp
    unfold handleSaveInsight at hp
    cases hidx : s.messages.findIdx? (fun m => m.id == targetId) with
    | none =>
      rw [hidx] at hp
      exact absurd hp (by simp)
    | some idx =>
      rw [hidx] at hp
      dsimp only at hp
      cases htar : s.messages[idx]? with
      | none =>
        rw [htar] at hp
        exact absurd hp (by simp)
      | some target =>
        rw [htar] at hp
        dsimp only at hp
        cases hu : findPrecedingUserAux s.messages idx with
        | none =>
          rw [hu] at hp
          exact absurd hp (by simp)
        | some u =>
          rw [hu] at hp
          dsimp only at hp
          obtain rfl := Option.some.inj hp
          obtain ⟨-, j, -, hjget, -⟩ :=
            findPrecedingUserAux_some_spec s.messages idx u hu
          exact ⟨reachable_contents_nonempty ctx s hs u (List.getElem?_mem hjget),
                 reachable_contents_nonempty ctx s hs target (List.getElem?_mem htar)⟩
  · intro s input uid mid events acc hfresh huid ht hp hacc
    rw [handleSubmit_of_ok s input uid mid events acc ht hp hacc]
    dsimp only
    unfold handleSaveInsight
    have hfi : (s.messages
        ++ [{ id := uid, role := ChatRole.user, content := trimChars input },
            { id := mid, role := ChatRole.model, content := acc }]
          : List ChatMessage).findIdx? (fun m => m.id == mid)
        = some (s.messages.length + 1) := by
      rw [findIdx?_append_all_false _ _ _
        (fun a ha => by simp [beq_eq_false_iff_ne]; exact hfresh a ha)]
      rw [findIdx?_cons_eq]
      have h1 : (({ id := uid, role := ChatRole.user, content := trimChars input }
          : ChatMessage).id == mid) = false := by
        simp [beq_eq_false_iff_ne]
        exact huid
      rw [h1, cond_false, findIdx?_cons_eq]
      have h2 : (({ id := mid, role := ChatRole.model, content := acc }
          : ChatMessage).id == mid) = true := by simp
      rw [h2, cond_true]
      simp [List.findIdx?, Nat.add_comm]
    rw [hfi]
    dsimp only
    have hget : (s.messages
        ++ [{ id := uid, role := ChatRole.user, content := trimChars input },
            { id := mid, role := ChatRole.model, content := acc }]
          : List ChatMessage)[s.messages.length + 1]?
        = some { id := mid, role := ChatRole.model, content := acc } := by
      rw [List.getElem?_append_right (by omega)]
      simp
    rw [hget]
    dsimp only
    have hprev : findPrecedingUserAux
        (s.messages
          ++ [{ id := uid, role := ChatRole.user, content := trimChars input },
              { id := mid, role := ChatRole.model, content := acc }])
        (s.messages.length + 1)
        = some { id := uid, role := ChatRole.user, content := trimChars input } := by
      unfold findPrecedingUserAux
      rw [List.getElem?_append_right (Nat.le_refl _)]
      simp
    rw [hprev]

/-- Witness for the C6 theorem: on a greeting, a question and a settled
reply, saving the reply submits exactly the (question, answer) pair. -/
theorem save_insight_pairing_witness :
    handleSaveInsight "c1"
        [⟨"greeting", ChatRole.model, "g"⟩, ⟨"u1", ChatRole.user, "q"⟩,
         ⟨"m1", ChatRole.model, "a"⟩] "m1"
      = some ⟨"c1", "q", "a"⟩ :=
  ((save_insight_pairing "c1" "m1"
      [⟨"greeting", ChatRole.model, "g"⟩, ⟨"u1", ChatRole.user, "q"⟩,
       ⟨"m1", ChatRole.model, "a"⟩]).2.1 2
    ⟨"m1", ChatRole.model, "a"⟩ ⟨"u1", ChatRole.user, "q"⟩
    (by decide) (by decide) (by decide)).1

end ThinkResume
